import Mathlib

/-!
Verification of the external-dns NextDNS webhook provider's reconciliation
core (internal/nextdns/provider.go and the client layer), shallowly embedded
in Lean 4.

The remote rewrite store is modelled as an explicit state (list of rows plus
a fresh-id counter).  Remote API calls can fail according to an explicit
schedule (`failAt`, the set of call indices at which the remote API returns
an error); an empty schedule is a healthy API.  Diagnostic warnings emitted
by the provider (skip-on-overwrite, not-found-on-delete) and the mutating API
calls performed (create/delete) are recorded in the state so that the
frame/effect claims can be stated.  The real NextDNS create endpoint infers
the record type from the content; the model lets the store record the kind
the provider associates with the row, which coincides for well-formed
targets of the requested kind.
-/

namespace NextDNS

/-- Is the first character list a prefix of the second? -/
def listIsPre : List Char → List Char → Bool
  | [], _ => true
  | _ :: _, [] => false
  | a :: as, b :: bs => a == b && listIsPre as bs

/-- Model of Go strings.HasPrefix on character lists. -/
def strIsPre (pat s : String) : Bool :=
  listIsPre pat.data s.data

/-- ASCII lower-casing of one character (Go strings.ToLower on ASCII). -/
def lowerChar (c : Char) : Char :=
  if 65 ≤ c.toNat && c.toNat ≤ 90 then Char.ofNat (c.toNat + 32) else c

/-- Model of Go strings.ToLower (ASCII case folding). -/
def strToLower (s : String) : String :=
  ⟨s.data.map lowerChar⟩

/-- Model of Go strings.HasSuffix (character-wise, which agrees with the
byte-wise original on equality of suffixes). -/
def hasSuffix (s suffix : String) : Bool :=
  decide (suffix.length ≤ s.length) && s.drop (s.length - suffix.length) == suffix

/-- Model of Go strings.TrimPrefix: drop the prefix when present. -/
def trimPrefixStr (s pre : String) : String :=
  if strIsPre pre s then s.drop pre.length else s

/-- Model of Go strings.Contains: some suffix of s starts with pat. -/
def strContains (s pat : String) : Bool :=
  (List.range (s.length + 1)).any (fun i => strIsPre pat (s.drop i))

/-- Model of Go strings.EqualFold (ASCII case folding). -/
def eqFold (a b : String) : Bool :=
  strToLower a == strToLower b

/-- A Go error value as seen by the retry layer: its message string and
whether it is a net.Error whose Timeout() reports true. -/
structure GoError where
  msg : String
  isNetTimeout : Bool
deriving DecidableEq, Repr

/-- Go net/http StatusText for the status codes consulted by the client. -/
def statusText : Nat → String
  | 400 => "Bad Request"
  | 401 => "Unauthorized"
  | 403 => "Forbidden"
  | 404 => "Not Found"
  | 429 => "Too Many Requests"
  | 500 => "Internal Server Error"
  | 502 => "Bad Gateway"
  | 503 => "Service Unavailable"
  | 504 => "Gateway Timeout"
  | _ => ""

/-- Status codes the client retries on (client.go retryableStatusCodes). -/
def retryableStatusCodes : List Nat := [429, 500, 502, 503, 504]

/-- Status codes the client treats as terminal (client.go nonRetryableStatusCodes). -/
def nonRetryableStatusCodes : List Nat := [400, 401, 403, 404]

/-- Network failure substrings the client retries on (client.go networkErrorPatterns). -/
def networkErrorPatterns : List String :=
  ["connection refused", "connection reset", "no such host",
   "temporary failure", "timeout", "EOF", "broken pipe"]

/-- An error message carries a status code when it contains the digits of the code
or its standard status text (the check performed in both loops of
isRetryableError). -/
def carriesCode (msg : String) (c : Nat) : Bool :=
  strContains msg (toString c) || strContains msg (statusText c)

/-- The retryable-status-code loop of isRetryableError. -/
def carriesRetryableCode (msg : String) : Bool :=
  retryableStatusCodes.any (carriesCode msg)

/-- The non-retryable-status-code loop of isRetryableError. -/
def carriesNonRetryableCode (msg : String) : Bool :=
  nonRetryableStatusCodes.any (carriesCode msg)

/-- The network-error-pattern loop of isRetryableError (case-insensitive). -/
def matchesNetworkPattern (msg : String) : Bool :=
  networkErrorPatterns.any (fun pat => strContains (strToLower msg) (strToLower pat))

/-- client.go isRetryableError: nil is not retryable; otherwise check net
timeout, then retryable status codes, then network patterns, then the
non-retryable codes (returning false), defaulting to false. -/
def isRetryableError : Option GoError → Bool
  | none => false
  | some e =>
    if e.isNetTimeout then true
    else if carriesRetryableCode e.msg then true
    else if matchesNetworkPattern e.msg then true
    else if carriesNonRetryableCode e.msg then false
    else false

/-- client.go maxRetryAttempts. -/
def maxRetryAttempts : Nat := 3

/-- client.go retryDelays, in seconds. -/
def retryDelays : List Nat := [1, 2, 4]

/-- The error returned when the cancellation context fires. -/
def ctxErr : GoError := { msg := "context canceled", isNetTimeout := false }

/-- Outcome of retryWithBackoff: the returned error (none is nil), how many
times the operation was invoked, and the delays waited between attempts. -/
structure RetryResult where
  result : Option GoError
  invocations : Nat
  waited : List Nat
deriving DecidableEq, Repr

/-- The loop body of client.go retryWithBackoff.  `attempt` is the 0-based
loop counter, `remaining` the number of retries still allowed
(`maxRetryAttempts - attempt`), `waited` the delays slept so far.  The
operation is a function of the attempt index so that per-attempt outcomes
can be described.  `ctxDone` models the cancellation context's state. -/
def retryAux (ctxDone : Bool) (op : Nat → Option GoError) :
    Nat → Nat → List Nat → RetryResult
  | remaining, attempt, waited =>
    if ctxDone then { result := some ctxErr, invocations := attempt, waited := waited }
    else
      match op attempt with
      | none => { result := none, invocations := attempt + 1, waited := waited }
      | some e =>
        if isRetryableError (some e) then
          match remaining with
          | 0 => { result := some e, invocations := attempt + 1, waited := waited }
          | r + 1 =>
            if ctxDone then { result := some ctxErr, invocations := attempt + 1, waited := waited }
            else retryAux ctxDone op r (attempt + 1) (waited ++ [retryDelays.getD attempt 0])
        else { result := some e, invocations := attempt + 1, waited := waited }

/-- client.go retryWithBackoff: initial attempt plus up to maxRetryAttempts
retries with the configured delays. -/
def retryWithBackoff (ctxDone : Bool) (op : Nat → Option GoError) : RetryResult :=
  retryAux ctxDone op maxRetryAttempts 0 []

/-- One row of the remote rewrite store ({id, name, type, content}). -/
structure Rewrite where
  id : Nat
  name : String
  rtype : String
  content : String
deriving DecidableEq, Repr

/-- The remote rewrite store: its rows and the next fresh row id. -/
structure RemoteState where
  rows : List Rewrite
  nextId : Nat
deriving DecidableEq, Repr

/-- A mutating remote API call, as recorded in the run trace. -/
inductive ApiAction where
  | created (id : Nat) (name rtype content : String)
  | deleted (id : Nat)
deriving DecidableEq, Repr

/-- A diagnostic warning emitted by the provider. -/
inductive Warn where
  | overwriteBlocked (dnsName recordType currentValue plannedValue : String)
  | notFoundOnDelete (dnsName recordType target : String)
deriving DecidableEq, Repr

/-- An error value in the provider/client layer: a raw API failure at a
given call index, possibly wrapped with context messages (fmt.Errorf with
%w). -/
inductive Err where
  | api (callIdx : Nat)
  | wrap (msg : String) (e : Err)
deriving DecidableEq, Repr

/-- The full client-side state: remote store, number of API calls made so
far, the failure schedule (call indices at which the remote API errors),
the provider's warning log, and the trace of mutating API calls. -/
structure ClientState where
  store : RemoteState
  calls : Nat
  failAt : List Nat
  warns : List Warn
  trace : List ApiAction
deriving DecidableEq, Repr

/-- Does the next API call succeed under the failure schedule? -/
def apiOk (s : ClientState) : Bool :=
  !(s.failAt.contains s.calls)

/-- Consume one API call slot. -/
def bumpCall (s : ClientState) : ClientState :=
  { s with calls := s.calls + 1 }

/-- client.go ListRewrites: one API call; on success returns every row. -/
def ListRewrites (s : ClientState) : ClientState × Except Err (List Rewrite) :=
  if apiOk s then (bumpCall s, .ok s.store.rows)
  else (bumpCall s, .error (.wrap "failed to list rewrites" (.api s.calls)))

/-- client.go CreateRewrite: one API call; on success appends a fresh row
and returns its id.  (The request sends only name and content; the store is
modelled as recording the provider's record type for the row.) -/
def CreateRewrite (s : ClientState) (name rtype content : String) :
    ClientState × Except Err Nat :=
  if apiOk s then
    let newId := s.store.nextId
    ({ bumpCall s with
        store := { rows := s.store.rows ++ [⟨newId, name, rtype, content⟩],
                   nextId := newId + 1 },
        trace := s.trace ++ [.created newId name rtype content] },
     .ok newId)
  else (bumpCall s, .error (.wrap "failed to create rewrite" (.api s.calls)))

/-- client.go DeleteRewrite: one API call; on success removes the rows with
the given id. -/
def DeleteRewrite (s : ClientState) (id : Nat) : ClientState × Option Err :=
  if apiOk s then
    ({ bumpCall s with
        store := { rows := s.store.rows.filter (fun r => r.id != id),
                   nextId := s.store.nextId },
        trace := s.trace ++ [.deleted id] },
     none)
  else (bumpCall s, some (.wrap "failed to delete rewrite" (.api s.calls)))

/-- The row predicate used by FindRewriteByName. -/
def matchesNameType (name rtype : String) (r : Rewrite) : Bool :=
  r.name == name && r.rtype == rtype

/-- client.go FindRewriteByName: list all rewrites, then linear scan for the
first row with the given name and type. -/
def FindRewriteByName (s : ClientState) (name rtype : String) :
    ClientState × Except Err (Option Rewrite) :=
  match ListRewrites s with
  | (s', .error e) => (s', .error e)
  | (s', .ok rows) => (s', .ok (rows.find? (matchesNameType name rtype)))

/-- client.go UpdateRewrite: delete the old row by id, then create the new
one (the NextDNS API has no native update endpoint). -/
def UpdateRewrite (s : ClientState) (id : Nat) (name rtype content : String) :
    ClientState × Except Err Nat :=
  match DeleteRewrite s id with
  | (s', some e) => (s', .error (.wrap "failed to delete old rewrite during update" e))
  | (s', none) =>
    match CreateRewrite s' name rtype content with
    | (s'', .error e) => (s'', .error (.wrap "failed to create new rewrite during update" e))
    | (s'', .ok newId) => (s'', .ok newId)

/-- One provider-specific annotation on an endpoint (name/value pair). -/
structure ProviderSpecificProperty where
  name : String
  value : String
deriving DecidableEq, Repr

/-- external-dns endpoint as consumed by the provider: DNS name, ordered
targets, record type, and provider-specific annotations. -/
structure Endpoint where
  dnsName : String
  targets : List String
  recordType : String
  providerSpecific : List ProviderSpecificProperty
deriving DecidableEq, Repr

/-- Provider configuration fields consulted by the reconciliation core. -/
structure Config where
  supportedRecords : List String
  domainFilter : List String
  dryRun : Bool
deriving DecidableEq, Repr

/-- The plan.Changes three-way diff processed by ApplyChanges. -/
structure Changes where
  create : List Endpoint
  updateOld : List Endpoint
  updateNew : List Endpoint
  delete : List Endpoint
deriving DecidableEq, Repr

/-- provider.go overwriteAnnotationKey. -/
def overwriteAnnotationKey : String :=
  "external-dns.alpha.kubernetes.io/nextdns-allow-overwrite"

/-- provider.go parseOverwriteAnnotation: the first provider-specific
property with the overwrite key decides; its value must equal "true"
case-insensitively; an absent key blocks overwrite. -/
def parseOverwriteAnnotation (ep : Endpoint) : Bool :=
  match ep.providerSpecific.find? (fun prop => prop.name == overwriteAnnotationKey) with
  | some prop => eqFold prop.value "true"
  | none => false

/-- provider.go isSupportedRecordType: case-insensitive membership in the
configured supported-record set. -/
def isSupportedRecordType (cfg : Config) (recordType : String) : Bool :=
  cfg.supportedRecords.any (fun supported => eqFold recordType supported)

/-- provider.go matchesDomainFilter: the name ends with a configured domain
or equals the domain with a leading dot stripped. -/
def matchesDomainFilter (cfg : Config) (dnsName : String) : Bool :=
  cfg.domainFilter.any (fun domain =>
    hasSuffix dnsName domain || dnsName == trimPrefixStr domain ".")

/-- The per-endpoint loop of provider.go AdjustEndpoints: drop unsupported
record types, then drop names failing a non-empty domain filter. -/
def adjustLoop (cfg : Config) : List Endpoint → List Endpoint
  | [] => []
  | ep :: rest =>
    if !(isSupportedRecordType cfg ep.recordType) then adjustLoop cfg rest
    else if decide (0 < cfg.domainFilter.length) && !(matchesDomainFilter cfg ep.dnsName) then
      adjustLoop cfg rest
    else ep :: adjustLoop cfg rest

/-- provider.go AdjustEndpoints: filter the endpoints; never errors. -/
def AdjustEndpoints (cfg : Config) (endpoints : List Endpoint) :
    List Endpoint × Option Err :=
  (adjustLoop cfg endpoints, none)

/-- The per-target loop of provider.go createRecord: look up the name/type;
if found, skip with a warning unless the overwrite annotation allows
replacing via UpdateRewrite; if not found, create the row. -/
def createRecordLoop (cfg : Config) (ep : Endpoint) :
    List String → ClientState → ClientState × Option Err
  | [], s => (s, none)
  | target :: rest, s =>
    match FindRewriteByName s ep.dnsName ep.recordType with
    | (s', .error e) => (s', some (.wrap "failed to check for existing record" e))
    | (s', .ok (some existing)) =>
      if parseOverwriteAnnotation ep then
        match UpdateRewrite s' existing.id ep.dnsName ep.recordType target with
        | (s'', .error e) => (s'', some (.wrap "failed to update existing record" e))
        | (s'', .ok _) => createRecordLoop cfg ep rest s''
      else
        createRecordLoop cfg ep rest
          { s' with warns := s'.warns ++
              [.overwriteBlocked ep.dnsName ep.recordType existing.content target] }
    | (s', .ok none) =>
      match CreateRewrite s' ep.dnsName ep.recordType target with
      | (s'', .error e) => (s'', some (.wrap "failed to create record" e))
      | (s'', .ok _) => createRecordLoop cfg ep rest s''

/-- provider.go createRecord: skip unsupported types, else process every
target in order. -/
def createRecord (cfg : Config) (s : ClientState) (ep : Endpoint) :
    ClientState × Option Err :=
  if isSupportedRecordType cfg ep.recordType then createRecordLoop cfg ep ep.targets s
  else (s, none)

/-- The per-target loop of provider.go deleteRecord: look up the name/type;
a missing row is a warned no-op; a found row is deleted by id. -/
def deleteRecordLoop (cfg : Config) (ep : Endpoint) :
    List String → ClientState → ClientState × Option Err
  | [], s => (s, none)
  | target :: rest, s =>
    match FindRewriteByName s ep.dnsName ep.recordType with
    | (s', .error e) => (s', some (.wrap "failed to find record for deletion" e))
    | (s', .ok none) =>
      deleteRecordLoop cfg ep rest
        { s' with warns := s'.warns ++
            [.notFoundOnDelete ep.dnsName ep.recordType target] }
    | (s', .ok (some existing)) =>
      match DeleteRewrite s' existing.id with
      | (s'', some e) => (s'', some (.wrap "failed to delete record" e))
      | (s'', none) => deleteRecordLoop cfg ep rest s''

/-- provider.go deleteRecord: skip unsupported types, else process every
target in order. -/
def deleteRecord (cfg : Config) (s : ClientState) (ep : Endpoint) :
    ClientState × Option Err :=
  if isSupportedRecordType cfg ep.recordType then deleteRecordLoop cfg ep ep.targets s
  else (s, none)

/-- provider.go updateRecord: delete the old endpoint then create the new
one, wrapping either failure with its phase. -/
def updateRecord (cfg : Config) (s : ClientState) (oldEp newEp : Endpoint) :
    ClientState × Option Err :=
  if isSupportedRecordType cfg oldEp.recordType then
    match deleteRecord cfg s oldEp with
    | (s', some e) => (s', some (.wrap "failed to delete old record during update" e))
    | (s', none) =>
      match createRecord cfg s' newEp with
      | (s'', some e) => (s'', some (.wrap "failed to create new record during update" e))
      | (s'', none) => (s'', none)
  else (s, none)

/-- provider.go Records: list all rewrites and translate each row to an
endpoint with a single target. -/
def Records (s : ClientState) : ClientState × Except Err (List Endpoint) :=
  match ListRewrites s with
  | (s', .error e) => (s', .error (.wrap "failed to list rewrites" e))
  | (s', .ok rewrites) =>
    (s', .ok (rewrites.map (fun r => ⟨r.name, [r.content], r.rtype, []⟩)))

/-- provider.go logChanges (dry-run preview): fetch current records once,
best-effort; on failure the comparison set is empty.  Returns the state
(the fetch consumed an API call) and the comparison set used. -/
def logChanges (s : ClientState) : ClientState × List Endpoint :=
  match Records s with
  | (s', .error _) => (s', [])
  | (s', .ok eps) => (s', eps)

/-- Sequential processing with abort-on-first-error, the loop shape shared
by the three phases of ApplyChanges. -/
def runSeq (f : α → ClientState → ClientState × Option Err) :
    List α → ClientState → ClientState × Option Err
  | [], s => (s, none)
  | x :: xs, s =>
    match f x s with
    | (s', some e) => (s', some e)
    | (s', none) => runSeq f xs s'

/-- One entry of the create phase: createRecord, its error wrapped with the
record's name. -/
def createAction (cfg : Config) (ep : Endpoint) (s : ClientState) :
    ClientState × Option Err :=
  match createRecord cfg s ep with
  | (s', some e) => (s', some (.wrap ("failed to create record " ++ ep.dnsName) e))
  | (s', none) => (s', none)

/-- One entry of the update phase: updateRecord on the old/new pair, its
error wrapped with the old record's name. -/
def updateAction (cfg : Config) (pair : Endpoint × Endpoint) (s : ClientState) :
    ClientState × Option Err :=
  match updateRecord cfg s pair.1 pair.2 with
  | (s', some e) => (s', some (.wrap ("failed to update record " ++ pair.1.dnsName) e))
  | (s', none) => (s', none)

/-- One entry of the delete phase: deleteRecord, its error wrapped with the
record's name. -/
def deleteAction (cfg : Config) (ep : Endpoint) (s : ClientState) :
    ClientState × Option Err :=
  match deleteRecord cfg s ep with
  | (s', some e) => (s', some (.wrap ("failed to delete record " ++ ep.dnsName) e))
  | (s', none) => (s', none)

/-- provider.go ApplyChanges: in dry-run, only the preview fetch happens and
nil is returned; otherwise creates, then update pairs, then deletes are
processed in order with abort-on-first-error. -/
def ApplyChanges (cfg : Config) (s : ClientState) (changes : Changes) :
    ClientState × Option Err :=
  if cfg.dryRun then
    ((logChanges s).1, none)
  else
    match runSeq (createAction cfg) changes.create s with
    | (s1, some e) => (s1, some e)
    | (s1, none) =>
      match runSeq (updateAction cfg) (changes.updateOld.zip changes.updateNew) s1 with
      | (s2, some e) => (s2, some e)
      | (s2, none) => runSeq (deleteAction cfg) changes.delete s2

/-- The keep-predicate of the candidate filter as the spec states it: the
record kind is in the supported set (case-insensitively), and the allow-list
is empty or the name ends with an entry or equals an entry with its leading
dot stripped.  Stated independently of adjustLoop so that AdjustEndpoints
can be proved to refine it. -/
def specKeep (cfg : Config) (ep : Endpoint) : Bool :=
  cfg.supportedRecords.any (fun kind => eqFold ep.recordType kind) &&
  (cfg.domainFilter.isEmpty ||
    cfg.domainFilter.any (fun domain =>
      hasSuffix ep.dnsName domain || ep.dnsName == trimPrefixStr domain "."))

/-! ## Helper lemmas -/

@[simp] theorem bumpCall_store (s : ClientState) : (bumpCall s).store = s.store := rfl

@[simp] theorem bumpCall_failAt (s : ClientState) : (bumpCall s).failAt = s.failAt := rfl

@[simp] theorem bumpCall_warns (s : ClientState) : (bumpCall s).warns = s.warns := rfl

@[simp] theorem bumpCall_trace (s : ClientState) : (bumpCall s).trace = s.trace := rfl

@[simp] theorem bumpCall_calls (s : ClientState) : (bumpCall s).calls = s.calls + 1 := rfl

theorem apiOk_healthy (s : ClientState) (h : s.failAt = []) : apiOk s = true := by
  simp [apiOk, h]

theorem ListRewrites_healthy (s : ClientState) (h : s.failAt = []) :
    ListRewrites s = (bumpCall s, .ok s.store.rows) := by
  simp [ListRewrites, apiOk_healthy s h]

theorem FindRewriteByName_healthy (s : ClientState) (h : s.failAt = []) (name rtype : String) :
    FindRewriteByName s name rtype =
      (bumpCall s, .ok (s.store.rows.find? (matchesNameType name rtype))) := by
  rw [FindRewriteByName, ListRewrites_healthy s h]

theorem CreateRewrite_healthy (s : ClientState) (h : s.failAt = []) (name rtype content : String) :
    CreateRewrite s name rtype content =
      ({ store := { rows := s.store.rows ++ [⟨s.store.nextId, name, rtype, content⟩],
                    nextId := s.store.nextId + 1 },
         calls := s.calls + 1, failAt := s.failAt, warns := s.warns,
         trace := s.trace ++ [.created s.store.nextId name rtype content] },
       .ok s.store.nextId) := by
  simp [CreateRewrite, apiOk_healthy s h, bumpCall]

theorem DeleteRewrite_healthy (s : ClientState) (h : s.failAt = []) (id : Nat) :
    DeleteRewrite s id =
      ({ store := { rows := s.store.rows.filter (fun r => r.id != id),
                    nextId := s.store.nextId },
         calls := s.calls + 1, failAt := s.failAt, warns := s.warns,
         trace := s.trace ++ [.deleted id] },
       none) := by
  simp [DeleteRewrite, apiOk_healthy s h, bumpCall]

theorem isRetryableError_iff_conditions (e : GoError) :
    isRetryableError (some e) =
      (e.isNetTimeout || carriesRetryableCode e.msg || matchesNetworkPattern e.msg) := by
  unfold isRetryableError
  cases h1 : e.isNetTimeout <;>
    cases h2 : carriesRetryableCode e.msg <;>
    cases h3 : matchesNetworkPattern e.msg <;>
    cases h4 : carriesNonRetryableCode e.msg <;>
    simp [h1, h2, h3, h4]

/-- C5 counterexample: the claim asserts that every error carrying one of
the status indicators 400, 401, 403 or 404 is terminal, but isRetryableError
checks the network-failure patterns before the non-retryable status codes:
the error "404 Not Found: connection timeout" carries 404 yet is classified
retryable because its message contains "timeout". -/
theorem C5_counterexample_404_with_timeout :
    carriesCode "404 Not Found: connection timeout" 404 = true ∧
    isRetryableError (some { msg := "404 Not Found: connection timeout",
                             isNetTimeout := false }) = true := by
  constructor <;> decide

/-- C5 (amended): isRetryableError classifies an error as retryable iff it
is a network timeout, or its message carries one of the status indicators
429/500/502/503/504 (digits or status text), or its message contains one of
the network-failure patterns case-insensitively; a nil error is terminal;
an error carrying one of 400/401/403/404 that matches none of the retryable
conditions is terminal (as is any otherwise-unclassified error); and the
retry policy performs 4 total attempts (delays 1s, 2s, 4s) for an
always-failing retryable error but exactly 1 attempt for a terminal one. -/
theorem C5_retry_classification :
    (∀ e : GoError, isRetryableError (some e) =
        (e.isNetTimeout || carriesRetryableCode e.msg || matchesNetworkPattern e.msg)) ∧
    isRetryableError none = false ∧
    (∀ e : GoError, carriesNonRetryableCode e.msg = true →
      e.isNetTimeout = false → carriesRetryableCode e.msg = false →
      matchesNetworkPattern e.msg = false → isRetryableError (some e) = false) ∧
    (∀ e : GoError, e.isNetTimeout = false → carriesRetryableCode e.msg = false →
      matchesNetworkPattern e.msg = false → isRetryableError (some e) = false) ∧
    (∀ e : GoError, isRetryableError (some e) = true →
      retryWithBackoff false (fun _ => some e) =
        { result := some e, invocations := 4, waited := [1, 2, 4] }) ∧
    (∀ e : GoError, isRetryableError (some e) = false →
      retryWithBackoff false (fun _ => some e) =
        { result := some e, invocations := 1, waited := [] }) := by
  refine ⟨isRetryableError_iff_conditions, rfl, ?_, ?_, ?_, ?_⟩
  · intro e _ h1 h2 h3
    rw [isRetryableError_iff_conditions, h1, h2, h3]
    rfl
  · intro e h1 h2 h3
    rw [isRetryableError_iff_conditions, h1, h2, h3]
    rfl
  · intro e h
    simp only [retryWithBackoff, maxRetryAttempts, retryAux, h, retryDelays,
      Bool.false_eq_true, if_false, List.getD, List.nil_append, List.cons_append,
      List.append_assoc]
    rfl
  · intro e h
    simp [retryWithBackoff, maxRetryAttempts, retryAux, h]

/-- C5 witness: concrete applications of the amended classification — a 404
error with no retryable condition is terminal and retried once; a 502 error
is retryable and retried four times with delays 1s, 2s, 4s. -/
theorem C5_retry_classification_witness :
    isRetryableError (some { msg := "API error: 404 Not Found",
                             isNetTimeout := false }) = false ∧
    retryWithBackoff false
        (fun _ => some { msg := "API error: 404 Not Found", isNetTimeout := false }) =
      { result := some { msg := "API error: 404 Not Found", isNetTimeout := false },
        invocations := 1, waited := [] } ∧
    retryWithBackoff false
        (fun _ => some { msg := "API error: 502 Bad Gateway", isNetTimeout := false }) =
      { result := some { msg := "API error: 502 Bad Gateway", isNetTimeout := false },
        invocations := 4, waited := [1, 2, 4] } := by
  refine ⟨?_, ?_, ?_⟩
  · exact C5_retry_classification.2.2.2.1 _ (by decide) (by decide) (by decide)
  · exact C5_retry_classification.2.2.2.2.2 _ (by decide)
  · exact C5_retry_classification.2.2.2.2.1 _ (by decide)

/-- C4: under a never-cancelled context, if the k-th invocation (1 ≤ k ≤ 4)
is the first to return nil (earlier invocations failing retryably, so the
loop reaches it), the operation is invoked exactly k times and
retryWithBackoff returns nil; if the first three invocations fail retryably
and the 4th fails with error e3, the operation is invoked exactly 4 times,
the delays 1s, 2s, 4s are waited between successive attempts, and the
returned error is exactly e3. -/
theorem C4_retry_attempt_counts (op : Nat → Option GoError) :
    (∀ k : Nat, 1 ≤ k → k ≤ 4 → op (k - 1) = none →
      (∀ j, j < k - 1 → ∃ e, op j = some e ∧ isRetryableError (some e) = true) →
      retryWithBackoff false op =
        { result := none, invocations := k, waited := retryDelays.take (k - 1) }) ∧
    (∀ e3 : GoError,
      (∀ j, j < 3 → ∃ e, op j = some e ∧ isRetryableError (some e) = true) →
      op 3 = some e3 →
      retryWithBackoff false op =
        { result := some e3, invocations := 4, waited := [1, 2, 4] }) := by
  constructor
  · intro k hk1 hk4 hnil hfail
    interval_cases k
    · simp only [retryWithBackoff, maxRetryAttempts, retryAux]
      simp at hnil
      simp [hnil, retryDelays]
    · obtain ⟨e0, he0, hr0⟩ := hfail 0 (by norm_num)
      simp only [retryWithBackoff, maxRetryAttempts, retryAux]
      simp at hnil
      simp [he0, hr0, hnil, retryDelays]
    · obtain ⟨e0, he0, hr0⟩ := hfail 0 (by norm_num)
      obtain ⟨e1, he1, hr1⟩ := hfail 1 (by norm_num)
      simp only [retryWithBackoff, maxRetryAttempts, retryAux]
      simp at hnil
      simp [he0, hr0, he1, hr1, hnil, retryDelays]
    · obtain ⟨e0, he0, hr0⟩ := hfail 0 (by norm_num)
      obtain ⟨e1, he1, hr1⟩ := hfail 1 (by norm_num)
      obtain ⟨e2, he2, hr2⟩ := hfail 2 (by norm_num)
      simp only [retryWithBackoff, maxRetryAttempts, retryAux]
      simp at hnil
      simp [he0, hr0, he1, hr1, he2, hr2, hnil, retryDelays]
  · intro e3 hfail he3
    obtain ⟨e0, he0, hr0⟩ := hfail 0 (by norm_num)
    obtain ⟨e1, he1, hr1⟩ := hfail 1 (by norm_num)
    obtain ⟨e2, he2, hr2⟩ := hfail 2 (by norm_num)
    simp only [retryWithBackoff, maxRetryAttempts, retryAux]
    cases hr3 : isRetryableError (some e3) <;>
      simp [he0, hr0, he1, hr1, he2, hr2, he3, hr3, retryDelays]

/-- C4 witness: an operation that fails with a 500 error on its first two
invocations and succeeds on the third is invoked exactly 3 times with nil
result; an operation always failing with a 502 error is invoked 4 times with
delays 1s, 2s, 4s and the 4th invocation's error is returned. -/
theorem C4_retry_attempt_counts_witness :
    retryWithBackoff false
        (fun j => if j < 2 then some { msg := "API error: 500", isNetTimeout := false }
                  else none) =
      { result := none, invocations := 3, waited := [1, 2] } ∧
    retryWithBackoff false
        (fun _ => some { msg := "API error: 502", isNetTimeout := false }) =
      { result := some { msg := "API error: 502", isNetTimeout := false },
        invocations := 4, waited := [1, 2, 4] } := by
  constructor
  · have h := (C4_retry_attempt_counts
      (fun j => if j < 2 then some { msg := "API error: 500", isNetTimeout := false }
                else none)).1 3 (by norm_num) (by norm_num) (by norm_num)
      (by
        intro j hj
        refine ⟨{ msg := "API error: 500", isNetTimeout := false }, ?_, ?_⟩
        · interval_cases j <;> rfl
        · decide)
    simpa [retryDelays] using h
  · exact (C4_retry_attempt_counts
      (fun _ => some { msg := "API error: 502", isNetTimeout := false })).2 _
      (by
        intro j hj
        exact ⟨{ msg := "API error: 502", isNetTimeout := false }, rfl, by decide⟩)
      rfl

theorem createRecordLoop_skip (cfg : Config) (ep : Endpoint) (r : Rewrite)
    (hov : parseOverwriteAnnotation ep = false) :
    ∀ (ts : List String) (s : ClientState), s.failAt = [] →
      s.store.rows.find? (matchesNameType ep.dnsName ep.recordType) = some r →
      createRecordLoop cfg ep ts s =
        ({ s with calls := s.calls + ts.length,
                  warns := s.warns ++ ts.map (fun t =>
                    .overwriteBlocked ep.dnsName ep.recordType r.content t) }, none) := by
  intro ts
  induction ts with
  | nil =>
    intro s hfail hfind
    simp [createRecordLoop]
  | cons t rest ih =>
    intro s hfail hfind
    rw [createRecordLoop, FindRewriteByName_healthy s hfail, hfind]
    simp only [hov, Bool.false_eq_true, if_false]
    rw [ih _ (by simp [hfail]) (by simpa using hfind)]
    simp [bumpCall]
    omega

/-- C1: for an endpoint of a supported kind whose overwrite marker is absent
or not case-insensitively "true", when a remote record with the same name
and kind already exists (and the API is healthy, so the lookups succeed),
createRecord leaves the remote store unchanged, performs no mutating API
call, emits a skip warning for each target, and returns nil. -/
theorem C1_default_deny_overwrite (cfg : Config) (s : ClientState) (ep : Endpoint)
    (r : Rewrite) (hfail : s.failAt = [])
    (hsup : isSupportedRecordType cfg ep.recordType = true)
    (hov : ∀ prop, ep.providerSpecific.find? (fun q => q.name == overwriteAnnotationKey) =
      some prop → eqFold prop.value "true" = false)
    (hfind : s.store.rows.find? (matchesNameType ep.dnsName ep.recordType) = some r) :
    (createRecord cfg s ep).1.store = s.store ∧
    (createRecord cfg s ep).1.trace = s.trace ∧
    (createRecord cfg s ep).2 = none ∧
    (createRecord cfg s ep).1.warns = s.warns ++ ep.targets.map (fun t =>
      .overwriteBlocked ep.dnsName ep.recordType r.content t) := by
  have hov' : parseOverwriteAnnotation ep = false := by
    unfold parseOverwriteAnnotation
    cases h : ep.providerSpecific.find? (fun q => q.name == overwriteAnnotationKey) with
    | none => rfl
    | some prop => exact hov prop h
  rw [createRecord, hsup, if_pos rfl,
    createRecordLoop_skip cfg ep r hov' ep.targets s hfail hfind]
  simp

/-- C1 witness: with the default config, a store holding a row for
(a.example.com, A) and an endpoint without the overwrite annotation,
createRecord leaves the store and trace unchanged, returns nil, and logs the
skip warning. -/
theorem C1_default_deny_overwrite_witness :
    (createRecord ⟨["A", "AAAA", "CNAME"], [], false⟩
        ⟨⟨[⟨1, "a.example.com", "A", "1.1.1.1"⟩], 2⟩, 0, [], [], []⟩
        ⟨"a.example.com", ["2.2.2.2"], "A", []⟩).1.store =
      ⟨[⟨1, "a.example.com", "A", "1.1.1.1"⟩], 2⟩ ∧
    (createRecord ⟨["A", "AAAA", "CNAME"], [], false⟩
        ⟨⟨[⟨1, "a.example.com", "A", "1.1.1.1"⟩], 2⟩, 0, [], [], []⟩
        ⟨"a.example.com", ["2.2.2.2"], "A", []⟩).1.trace = [] ∧
    (createRecord ⟨["A", "AAAA", "CNAME"], [], false⟩
        ⟨⟨[⟨1, "a.example.com", "A", "1.1.1.1"⟩], 2⟩, 0, [], [], []⟩
        ⟨"a.example.com", ["2.2.2.2"], "A", []⟩).2 = none ∧
    (createRecord ⟨["A", "AAAA", "CNAME"], [], false⟩
        ⟨⟨[⟨1, "a.example.com", "A", "1.1.1.1"⟩], 2⟩, 0, [], [], []⟩
        ⟨"a.example.com", ["2.2.2.2"], "A", []⟩).1.warns =
      [.overwriteBlocked "a.example.com" "A" "1.1.1.1" "2.2.2.2"] := by
  have h := C1_default_deny_overwrite ⟨["A", "AAAA", "CNAME"], [], false⟩
    ⟨⟨[⟨1, "a.example.com", "A", "1.1.1.1"⟩], 2⟩, 0, [], [], []⟩
    ⟨"a.example.com", ["2.2.2.2"], "A", []⟩
    ⟨1, "a.example.com", "A", "1.1.1.1"⟩
    rfl (by decide) (by intro prop hp; simp at hp) (by decide)
  simpa using h

theorem find?_append_left_none {α : Type} {p : α → Bool} :
    ∀ l₁ l₂ : List α, l₁.find? p = none → (l₁ ++ l₂).find? p = l₂.find? p := by
  intro l₁
  induction l₁ with
  | nil => intro l₂ _; rfl
  | cons a as ih =>
    intro l₂ h
    cases hpa : p a with
    | true => simp [List.find?_cons, hpa] at h
    | false =>
      simp only [List.cons_append, List.find?_cons, hpa] at h ⊢
      exact ih l₂ h

theorem find?_of_filter_eq_singleton {α : Type} {p : α → Bool} :
    ∀ (l : List α) (a : α), l.filter p = [a] → l.find? p = some a := by
  intro l
  induction l with
  | nil => intro a h; simp at h
  | cons x xs ih =>
    intro a h
    cases hpx : p x with
    | true =>
      rw [List.filter_cons_of_pos hpx] at h
      simp only [List.cons.injEq] at h
      obtain ⟨rfl, -⟩ := h
      simp [List.find?_cons, hpx]
    | false =>
      rw [List.filter_cons_of_neg (by simp [hpx])] at h
      simp [List.find?_cons, hpx, ih a h]

theorem matchesNameType_self (id' : Nat) (name rtype content : String) :
    matchesNameType name rtype ⟨id', name, rtype, content⟩ = true := by
  simp [matchesNameType]

/-- C6 counterexample: an endpoint of supported kind A with two targets,
neither colliding with any pre-existing row (the store is empty), for which
createRecord nevertheless leaves only one row for that name and kind — the
row created for the first target collides with the second target's lookup,
so the claimed n rows (here 2) are not created. -/
theorem C6_counterexample_two_targets :
    (⟨"new.example.com", ["10.0.0.1", "10.0.0.2"], "A", []⟩ : Endpoint).targets.length = 2 ∧
    (⟨⟨[], 0⟩, 0, [], [], []⟩ : ClientState).store.rows.filter
        (matchesNameType "new.example.com" "A") = [] ∧
    ((createRecord ⟨["A", "AAAA", "CNAME"], [], false⟩ ⟨⟨[], 0⟩, 0, [], [], []⟩
        ⟨"new.example.com", ["10.0.0.1", "10.0.0.2"], "A", []⟩).1.store.rows.filter
        (matchesNameType "new.example.com" "A")).length = 1 := by
  refine ⟨rfl, rfl, ?_⟩
  decide

/-- C6 (amended): for an endpoint of a supported kind with a non-empty
target list, no overwrite marker, and no pre-existing remote row of the same
name and kind (healthy API), createRecord creates one row for the *first*
target only; every subsequent target then collides with that just-created
row and is skipped with a warning, so afterwards the store holds the
original rows plus exactly one new row for that name and kind, carrying the
first target.  (For single-target endpoints this is one row per target, as
originally claimed.) -/
theorem C6_create_first_target_only (cfg : Config) (s : ClientState) (ep : Endpoint)
    (t : String) (ts : List String) (hfail : s.failAt = [])
    (hsup : isSupportedRecordType cfg ep.recordType = true)
    (hov : parseOverwriteAnnotation ep = false)
    (htargets : ep.targets = t :: ts)
    (hnone : s.store.rows.filter (matchesNameType ep.dnsName ep.recordType) = []) :
    (createRecord cfg s ep).2 = none ∧
    (createRecord cfg s ep).1.store.rows =
      s.store.rows ++ [⟨s.store.nextId, ep.dnsName, ep.recordType, t⟩] ∧
    (createRecord cfg s ep).1.store.rows.filter
        (matchesNameType ep.dnsName ep.recordType) =
      [⟨s.store.nextId, ep.dnsName, ep.recordType, t⟩] ∧
    (createRecord cfg s ep).1.trace =
      s.trace ++ [.created s.store.nextId ep.dnsName ep.recordType t] ∧
    (createRecord cfg s ep).1.warns = s.warns ++ ts.map (fun target =>
      .overwriteBlocked ep.dnsName ep.recordType t target) := by
  have hfind : s.store.rows.find? (matchesNameType ep.dnsName ep.recordType) = none := by
    rw [List.find?_eq_none]
    intro x hx
    intro hpx
    have : x ∈ s.store.rows.filter (matchesNameType ep.dnsName ep.recordType) :=
      List.mem_filter.mpr ⟨hx, hpx⟩
    rw [hnone] at this
    simp at this
  rw [createRecord, hsup, if_pos rfl, htargets, createRecordLoop,
    FindRewriteByName_healthy s hfail, hfind]
  simp only []
  rw [CreateRewrite_healthy _ (by simp [hfail])]
  simp only [bumpCall_store, bumpCall_warns, bumpCall_trace]
  have hfind2 : ((s.store.rows ++
        [(⟨s.store.nextId, ep.dnsName, ep.recordType, t⟩ : Rewrite)]).find?
      (matchesNameType ep.dnsName ep.recordType)) =
      some ⟨s.store.nextId, ep.dnsName, ep.recordType, t⟩ := by
    rw [find?_append_left_none _ _ hfind]
    simp [List.find?_cons, matchesNameType_self]
  rw [createRecordLoop_skip cfg ep ⟨s.store.nextId, ep.dnsName, ep.recordType, t⟩ hov ts _
    (by simp [hfail]) (by simpa using hfind2)]
  refine ⟨rfl, rfl, ?_, by simp, by simp⟩
  simp only []
  rw [List.filter_append, hnone, List.nil_append,
    List.filter_cons_of_pos (matchesNameType_self _ _ _ _)]
  simp

/-- C6 witness: the amended claim applied to the two-target counterexample
input — only the first target's row exists afterwards, and the second
target was skipped with a warning. -/
theorem C6_create_first_target_only_witness :
    (createRecord ⟨["A", "AAAA", "CNAME"], [], false⟩ ⟨⟨[], 0⟩, 0, [], [], []⟩
        ⟨"new.example.com", ["10.0.0.1", "10.0.0.2"], "A", []⟩).1.store.rows =
      [⟨0, "new.example.com", "A", "10.0.0.1"⟩] ∧
    (createRecord ⟨["A", "AAAA", "CNAME"], [], false⟩ ⟨⟨[], 0⟩, 0, [], [], []⟩
        ⟨"new.example.com", ["10.0.0.1", "10.0.0.2"], "A", []⟩).1.warns =
      [.overwriteBlocked "new.example.com" "A" "10.0.0.1" "10.0.0.2"] := by
  have h := C6_create_first_target_only ⟨["A", "AAAA", "CNAME"], [], false⟩
    ⟨⟨[], 0⟩, 0, [], [], []⟩ ⟨"new.example.com", ["10.0.0.1", "10.0.0.2"], "A", []⟩
    "10.0.0.1" ["10.0.0.2"] rfl (by decide) (by decide) rfl rfl
  exact ⟨by simpa using h.2.1, by simpa using h.2.2.2.2⟩

theorem deleteRecordLoop_notfound (cfg : Config) (ep : Endpoint) :
    ∀ (ts : List String) (s : ClientState), s.failAt = [] →
      s.store.rows.find? (matchesNameType ep.dnsName ep.recordType) = none →
      deleteRecordLoop cfg ep ts s =
        ({ s with calls := s.calls + ts.length,
                  warns := s.warns ++ ts.map (fun t =>
                    .notFoundOnDelete ep.dnsName ep.recordType t) }, none) := by
  intro ts
  induction ts with
  | nil =>
    intro s hfail hfind
    simp [deleteRecordLoop]
  | cons t rest ih =>
    intro s hfail hfind
    rw [deleteRecordLoop, FindRewriteByName_healthy s hfail, hfind]
    simp only []
    rw [ih _ (by simp [hfail]) (by simpa using hfind)]
    simp [bumpCall]
    omega

theorem deleteRecordLoop_noerr (cfg : Config) (ep : Endpoint) :
    ∀ (ts : List String) (s : ClientState), s.failAt = [] →
      (deleteRecordLoop cfg ep ts s).2 = none ∧
      (deleteRecordLoop cfg ep ts s).1.failAt = [] := by
  intro ts
  induction ts with
  | nil => intro s hfail; exact ⟨rfl, hfail⟩
  | cons t rest ih =>
    intro s hfail
    rw [deleteRecordLoop, FindRewriteByName_healthy s hfail]
    cases hfind : s.store.rows.find? (matchesNameType ep.dnsName ep.recordType) with
    | none => exact ih _ (by simp [hfail])
    | some r =>
      simp only []
      rw [DeleteRewrite_healthy _ (by simp [hfail])]
      exact ih _ (by simp [hfail])

theorem deleteRecord_noerr (cfg : Config) (s : ClientState) (ep : Endpoint)
    (hfail : s.failAt = []) :
    (deleteRecord cfg s ep).2 = none ∧ (deleteRecord cfg s ep).1.failAt = [] := by
  rw [deleteRecord]
  cases hsup : isSupportedRecordType cfg ep.recordType with
  | true => simpa using deleteRecordLoop_noerr cfg ep ep.targets s hfail
  | false => exact ⟨rfl, hfail⟩

/-- C7: deleteRecord is idempotent at the interface: (i) when no remote row
matches the endpoint's name and kind (healthy API, supported kind), the
missing row is treated as success — the store and trace are unchanged, one
warning is logged per target, and nil is returned; (ii) a second call in
succession for the same endpoint after a first call never errors. -/
theorem C7_idempotent_delete (cfg : Config) (s : ClientState) (ep : Endpoint)
    (hfail : s.failAt = []) :
    (isSupportedRecordType cfg ep.recordType = true →
      s.store.rows.find? (matchesNameType ep.dnsName ep.recordType) = none →
      (deleteRecord cfg s ep).1.store = s.store ∧
      (deleteRecord cfg s ep).1.trace = s.trace ∧
      (deleteRecord cfg s ep).2 = none ∧
      (deleteRecord cfg s ep).1.warns = s.warns ++ ep.targets.map (fun t =>
        .notFoundOnDelete ep.dnsName ep.recordType t)) ∧
    (deleteRecord cfg ((deleteRecord cfg s ep).1) ep).2 = none := by
  constructor
  · intro hsup hfind
    rw [deleteRecord, hsup, if_pos rfl,
      deleteRecordLoop_notfound cfg ep ep.targets s hfail hfind]
    exact ⟨rfl, rfl, rfl, rfl⟩
  · exact (deleteRecord_noerr cfg _ ep (deleteRecord_noerr cfg s ep hfail).2).1

/-- C7 witness: deleting a record that is absent from the store returns nil
with the store untouched and a warning logged, and a second delete in
succession also returns nil. -/
theorem C7_idempotent_delete_witness :
    (deleteRecord ⟨["A", "AAAA", "CNAME"], [], false⟩
        ⟨⟨[⟨1, "other.example.com", "A", "1.1.1.1"⟩], 2⟩, 0, [], [], []⟩
        ⟨"gone.example.com", ["10.0.0.1"], "A", []⟩).1.store =
      ⟨[⟨1, "other.example.com", "A", "1.1.1.1"⟩], 2⟩ ∧
    (deleteRecord ⟨["A", "AAAA", "CNAME"], [], false⟩
        ⟨⟨[⟨1, "other.example.com", "A", "1.1.1.1"⟩], 2⟩, 0, [], [], []⟩
        ⟨"gone.example.com", ["10.0.0.1"], "A", []⟩).2 = none ∧
    (deleteRecord ⟨["A", "AAAA", "CNAME"], [], false⟩
        ⟨⟨[⟨1, "other.example.com", "A", "1.1.1.1"⟩], 2⟩, 0, [], [], []⟩
        ⟨"gone.example.com", ["10.0.0.1"], "A", []⟩).1.warns =
      [.notFoundOnDelete "gone.example.com" "A" "10.0.0.1"] ∧
    (deleteRecord ⟨["A", "AAAA", "CNAME"], [], false⟩
        ((deleteRecord ⟨["A", "AAAA", "CNAME"], [], false⟩
          ⟨⟨[⟨1, "other.example.com", "A", "1.1.1.1"⟩], 2⟩, 0, [], [], []⟩
          ⟨"gone.example.com", ["10.0.0.1"], "A", []⟩).1)
        ⟨"gone.example.com", ["10.0.0.1"], "A", []⟩).2 = none := by
  have h := C7_idempotent_delete ⟨["A", "AAAA", "CNAME"], [], false⟩
    ⟨⟨[⟨1, "other.example.com", "A", "1.1.1.1"⟩], 2⟩, 0, [], [], []⟩
    ⟨"gone.example.com", ["10.0.0.1"], "A", []⟩ rfl
  have h1 := h.1 (by decide) (by decide)
  exact ⟨h1.1, h1.2.2.1, by simpa using h1.2.2.2, h.2⟩

theorem deleteRecordLoop_target_blind (cfg : Config) (ep1 ep2 : Endpoint)
    (hname : ep1.dnsName = ep2.dnsName) (htype : ep1.recordType = ep2.recordType) :
    ∀ (ts1 ts2 : List String) (s1 s2 : ClientState), ts1.length = ts2.length →
      s1.failAt = [] → s2.failAt = [] → s1.store = s2.store → s1.trace = s2.trace →
      (deleteRecordLoop cfg ep1 ts1 s1).1.store = (deleteRecordLoop cfg ep2 ts2 s2).1.store ∧
      (deleteRecordLoop cfg ep1 ts1 s1).1.trace = (deleteRecordLoop cfg ep2 ts2 s2).1.trace ∧
      (deleteRecordLoop cfg ep1 ts1 s1).2 = (deleteRecordLoop cfg ep2 ts2 s2).2 := by
  intro ts1
  induction ts1 with
  | nil =>
    intro ts2 s1 s2 hlen hf1 hf2 hstore htrace
    cases ts2 with
    | nil => exact ⟨hstore, htrace, rfl⟩
    | cons _ _ => simp at hlen
  | cons t1 rest1 ih =>
    intro ts2 s1 s2 hlen hf1 hf2 hstore htrace
    cases ts2 with
    | nil => simp at hlen
    | cons t2 rest2 =>
      rw [deleteRecordLoop, deleteRecordLoop,
        FindRewriteByName_healthy s1 hf1, FindRewriteByName_healthy s2 hf2]
      rw [hname, htype, hstore]
      cases hfind : s2.store.rows.find?
          (matchesNameType ep2.dnsName ep2.recordType) with
      | none =>
        exact ih rest2 _ _ (by simpa using hlen) (by simp [hf1]) (by simp [hf2])
          (by simpa using hstore) (by simpa using htrace)
      | some r =>
        simp only []
        rw [DeleteRewrite_healthy _ (by simp [hf1]), DeleteRewrite_healthy _ (by simp [hf2])]
        exact ih rest2 _ _ (by simpa using hlen) (by simp [hf1]) (by simp [hf2])
          (by simp [hstore]) (by simp [htrace])

/-- C10: the rows deleteRecord removes depend only on the name of the endpoint,
record kind, and the number of targets, never on the target values: two
endpoints agreeing on name, kind and target count leave the same store and
the same mutation trace from the same start state; moreover a row whose
content differs from every listed target is deleted (concrete conjunct:
the only row's content is 9.9.9.9, the only target 1.2.3.4, and the row is
removed). -/
theorem C10_delete_ignores_target_values :
    (∀ (cfg : Config) (s : ClientState) (ep1 ep2 : Endpoint), s.failAt = [] →
      ep1.dnsName = ep2.dnsName → ep1.recordType = ep2.recordType →
      ep1.targets.length = ep2.targets.length →
      (deleteRecord cfg s ep1).1.store = (deleteRecord cfg s ep2).1.store ∧
      (deleteRecord cfg s ep1).1.trace = (deleteRecord cfg s ep2).1.trace ∧
      (deleteRecord cfg s ep1).2 = (deleteRecord cfg s ep2).2) ∧
    (deleteRecord ⟨["A", "AAAA", "CNAME"], [], false⟩
        ⟨⟨[⟨5, "x.example.com", "A", "9.9.9.9"⟩], 6⟩, 0, [], [], []⟩
        ⟨"x.example.com", ["1.2.3.4"], "A", []⟩).1.store.rows = [] ∧
    (deleteRecord ⟨["A", "AAAA", "CNAME"], [], false⟩
        ⟨⟨[⟨5, "x.example.com", "A", "9.9.9.9"⟩], 6⟩, 0, [], [], []⟩
        ⟨"x.example.com", ["1.2.3.4"], "A", []⟩).1.trace = [.deleted 5] := by
  refine ⟨?_, by decide, by decide⟩
  intro cfg s ep1 ep2 hfail hname htype hlen
  rw [deleteRecord, deleteRecord, htype]
  cases hsup : isSupportedRecordType cfg ep2.recordType with
  | true =>
    simpa using deleteRecordLoop_target_blind cfg ep1 ep2 hname htype
      ep1.targets ep2.targets s s hlen hfail hfail rfl rfl
  | false => exact ⟨rfl, rfl, rfl⟩

/-- C10 witness: two endpoints for the same name and kind with equal target
counts but different target values produce the same store and trace. -/
theorem C10_delete_ignores_target_values_witness :
    (deleteRecord ⟨["A", "AAAA", "CNAME"], [], false⟩
        ⟨⟨[⟨5, "x.example.com", "A", "9.9.9.9"⟩], 6⟩, 0, [], [], []⟩
        ⟨"x.example.com", ["1.2.3.4"], "A", []⟩).1.store =
      (deleteRecord ⟨["A", "AAAA", "CNAME"], [], false⟩
        ⟨⟨[⟨5, "x.example.com", "A", "9.9.9.9"⟩], 6⟩, 0, [], [], []⟩
        ⟨"x.example.com", ["7.7.7.7"], "A", []⟩).1.store := by
  exact (C10_delete_ignores_target_values.1 ⟨["A", "AAAA", "CNAME"], [], false⟩
    ⟨⟨[⟨5, "x.example.com", "A", "9.9.9.9"⟩], 6⟩, 0, [], [], []⟩
    ⟨"x.example.com", ["1.2.3.4"], "A", []⟩
    ⟨"x.example.com", ["7.7.7.7"], "A", []⟩ rfl rfl rfl rfl).1

/-- C2: for a store whose only row matching name N and kind K is
(id R1, target T1), with fresh ids bounded by the id counter, and an
endpoint for (N, K) carrying overwrite marker "true" and the single target
T2 (healthy API, supported kind), after createRecord succeeds the store
contains exactly one row for (N, K), its target is T2, no row with id R1
remains, and the replacement was performed as a delete of R1 followed by a
create of the new target. -/
theorem C2_authorized_overwrite_replaces (cfg : Config) (s : ClientState)
    (ep : Endpoint) (prop : ProviderSpecificProperty) (N K T1 T2 : String) (R1 : Nat)
    (hfail : s.failAt = [])
    (hname : ep.dnsName = N) (htype : ep.recordType = K)
    (htargets : ep.targets = [T2])
    (hsup : isSupportedRecordType cfg K = true)
    (hovfind : ep.providerSpecific.find? (fun q => q.name == overwriteAnnotationKey) =
      some prop)
    (hovtrue : eqFold prop.value "true" = true)
    (hfilter : s.store.rows.filter (matchesNameType N K) = [⟨R1, N, K, T1⟩])
    (hfresh : ∀ row ∈ s.store.rows, row.id < s.store.nextId) :
    (createRecord cfg s ep).2 = none ∧
    (createRecord cfg s ep).1.store.rows.filter (matchesNameType N K) =
      [⟨s.store.nextId, N, K, T2⟩] ∧
    (∀ row ∈ (createRecord cfg s ep).1.store.rows, row.id ≠ R1) ∧
    (createRecord cfg s ep).1.trace =
      s.trace ++ [.deleted R1, .created s.store.nextId N K T2] := by
  subst hname
  subst htype
  have hov' : parseOverwriteAnnotation ep = true := by
    unfold parseOverwriteAnnotation
    rw [hovfind]
    exact hovtrue
  have hfind := find?_of_filter_eq_singleton _ _ hfilter
  have hr1mem : (⟨R1, ep.dnsName, ep.recordType, T1⟩ : Rewrite) ∈ s.store.rows := by
    have hm : (⟨R1, ep.dnsName, ep.recordType, T1⟩ : Rewrite) ∈
        s.store.rows.filter (matchesNameType ep.dnsName ep.recordType) := by
      rw [hfilter]
      exact List.mem_singleton.mpr rfl
    exact List.mem_of_mem_filter hm
  have huniq : ∀ x ∈ s.store.rows, matchesNameType ep.dnsName ep.recordType x = true →
      x = ⟨R1, ep.dnsName, ep.recordType, T1⟩ := by
    intro x hx hpx
    have hm : x ∈ s.store.rows.filter (matchesNameType ep.dnsName ep.recordType) :=
      List.mem_filter.mpr ⟨hx, hpx⟩
    rw [hfilter] at hm
    simpa using hm
  have hR1lt : R1 < s.store.nextId := hfresh _ hr1mem
  rw [createRecord, hsup, if_pos rfl, htargets, createRecordLoop,
    FindRewriteByName_healthy s hfail, hfind]
  simp only [hov', if_true]
  rw [UpdateRewrite, DeleteRewrite_healthy _ (by simp [hfail])]
  simp only []
  rw [CreateRewrite_healthy _ (by simp [hfail])]
  simp only [createRecordLoop]
  refine ⟨trivial, ?_, ?_, ?_⟩
  · rw [List.filter_append]
    simp only [bumpCall_store]
    have h1 : (s.store.rows.filter (fun r => r.id != R1)).filter
        (matchesNameType ep.dnsName ep.recordType) = [] := by
      rw [List.filter_eq_nil_iff]
      intro x hx hpx
      have hxr : x ∈ s.store.rows := List.mem_of_mem_filter hx
      have hxid : x.id ≠ R1 := by
        have hb := (List.mem_filter.mp hx).2
        simpa using hb
      exact hxid (congrArg Rewrite.id (huniq x hxr hpx))
    rw [h1, List.nil_append, List.filter_cons_of_pos (matchesNameType_self _ _ _ _),
      List.filter_nil]
  · intro row hrow
    rcases List.mem_append.mp hrow with hL | hR
    · have hb := (List.mem_filter.mp hL).2
      simpa using hb
    · have hrw : row = ⟨s.store.nextId, ep.dnsName, ep.recordType, T2⟩ := by simpa using hR
      rw [hrw]
      exact Nat.ne_of_gt hR1lt
  · simp

/-- C2 witness: the concrete scenario given in the spec — store row (id 1,
a.example.com, A, 1.1.1.1), endpoint with marker "true" and target 2.2.2.2:
afterwards exactly one (name, kind) row exists with target 2.2.2.2, id 1 is
gone, and the trace is delete-then-create. -/
theorem C2_authorized_overwrite_replaces_witness :
    (createRecord ⟨["A", "AAAA", "CNAME"], [], false⟩
        ⟨⟨[⟨1, "a.example.com", "A", "1.1.1.1"⟩], 2⟩, 0, [], [], []⟩
        ⟨"a.example.com", ["2.2.2.2"], "A", [⟨overwriteAnnotationKey, "true"⟩]⟩).2 = none ∧
    (createRecord ⟨["A", "AAAA", "CNAME"], [], false⟩
        ⟨⟨[⟨1, "a.example.com", "A", "1.1.1.1"⟩], 2⟩, 0, [], [], []⟩
        ⟨"a.example.com", ["2.2.2.2"], "A",
          [⟨overwriteAnnotationKey, "true"⟩]⟩).1.store.rows.filter
        (matchesNameType "a.example.com" "A") = [⟨2, "a.example.com", "A", "2.2.2.2"⟩] ∧
    (createRecord ⟨["A", "AAAA", "CNAME"], [], false⟩
        ⟨⟨[⟨1, "a.example.com", "A", "1.1.1.1"⟩], 2⟩, 0, [], [], []⟩
        ⟨"a.example.com", ["2.2.2.2"], "A", [⟨overwriteAnnotationKey, "true"⟩]⟩).1.trace =
      [.deleted 1, .created 2 "a.example.com" "A" "2.2.2.2"] := by
  have h := C2_authorized_overwrite_replaces ⟨["A", "AAAA", "CNAME"], [], false⟩
    ⟨⟨[⟨1, "a.example.com", "A", "1.1.1.1"⟩], 2⟩, 0, [], [], []⟩
    ⟨"a.example.com", ["2.2.2.2"], "A", [⟨overwriteAnnotationKey, "true"⟩]⟩
    ⟨overwriteAnnotationKey, "true"⟩ "a.example.com" "A" "1.1.1.1" "2.2.2.2" 1
    rfl rfl rfl rfl (by decide) (by decide) (by decide) (by decide) (by decide)
  exact ⟨h.1, h.2.1, by simpa using h.2.2.2⟩

theorem runSeq_append_ok {α : Type} (f : α → ClientState → ClientState × Option Err) :
    ∀ (xs ys : List α) (s s1 : ClientState), runSeq f xs s = (s1, none) →
      runSeq f (xs ++ ys) s = runSeq f ys s1 := by
  intro xs
  induction xs with
  | nil =>
    intro ys s s1 h
    simp only [runSeq, Prod.mk.injEq] at h
    rw [List.nil_append, h.1]
  | cons x xs ih =>
    intro ys s s1 h
    rw [runSeq] at h
    rw [List.cons_append, runSeq]
    cases hfx : f x s with
    | mk sx r =>
      rw [hfx] at h
      cases r with
      | some e => simp at h
      | none =>
        simp only [] at h
        exact ih ys sx s1 h

theorem createAction_err (cfg : Config) (ep : Endpoint) (s : ClientState) (e : Err)
    (h : (createRecord cfg s ep).2 = some e) :
    createAction cfg ep s = ((createRecord cfg s ep).1,
      some (.wrap ("failed to create record " ++ ep.dnsName) e)) := by
  unfold createAction
  cases hcr : createRecord cfg s ep with
  | mk sx r =>
    rw [hcr] at h
    simp only [] at h
    rw [h]

theorem updateAction_err (cfg : Config) (pr : Endpoint × Endpoint) (s : ClientState) (e : Err)
    (h : (updateRecord cfg s pr.1 pr.2).2 = some e) :
    updateAction cfg pr s = ((updateRecord cfg s pr.1 pr.2).1,
      some (.wrap ("failed to update record " ++ pr.1.dnsName) e)) := by
  unfold updateAction
  cases hcr : updateRecord cfg s pr.1 pr.2 with
  | mk sx r =>
    rw [hcr] at h
    simp only [] at h
    rw [h]

theorem deleteAction_err (cfg : Config) (ep : Endpoint) (s : ClientState) (e : Err)
    (h : (deleteRecord cfg s ep).2 = some e) :
    deleteAction cfg ep s = ((deleteRecord cfg s ep).1,
      some (.wrap ("failed to delete record " ++ ep.dnsName) e)) := by
  unfold deleteAction
  cases hcr : deleteRecord cfg s ep with
  | mk sx r =>
    rw [hcr] at h
    simp only [] at h
    rw [h]

/-- C3: for a non-dry-run ChangeSet, ApplyChanges processes toCreate in list
order, then the update pairs, then toDelete; the first per-record action
returning an error stops the whole changeset: the error, wrapped with the
name of the record, is returned, the final state is exactly the state after the
failing action (so mutations already applied by earlier entries remain and
no later action is attempted); when all creates and updates succeed the
deletes run last from the accumulated state. -/
theorem C3_apply_changes_order_and_abort (cfg : Config) (s : ClientState) (ch : Changes)
    (hdry : cfg.dryRun = false) :
    (∀ (pre : List Endpoint) (ep : Endpoint) (post : List Endpoint)
        (s1 : ClientState) (e : Err),
      ch.create = pre ++ ep :: post →
      runSeq (createAction cfg) pre s = (s1, none) →
      (createRecord cfg s1 ep).2 = some e →
      ApplyChanges cfg s ch = ((createRecord cfg s1 ep).1,
        some (.wrap ("failed to create record " ++ ep.dnsName) e))) ∧
    (∀ (s1 : ClientState) (pre : List (Endpoint × Endpoint)) (pr : Endpoint × Endpoint)
        (post : List (Endpoint × Endpoint)) (s2 : ClientState) (e : Err),
      runSeq (createAction cfg) ch.create s = (s1, none) →
      ch.updateOld.zip ch.updateNew = pre ++ pr :: post →
      runSeq (updateAction cfg) pre s1 = (s2, none) →
      (updateRecord cfg s2 pr.1 pr.2).2 = some e →
      ApplyChanges cfg s ch = ((updateRecord cfg s2 pr.1 pr.2).1,
        some (.wrap ("failed to update record " ++ pr.1.dnsName) e))) ∧
    (∀ (s1 s2 : ClientState) (pre : List Endpoint) (ep : Endpoint) (post : List Endpoint)
        (s3 : ClientState) (e : Err),
      runSeq (createAction cfg) ch.create s = (s1, none) →
      runSeq (updateAction cfg) (ch.updateOld.zip ch.updateNew) s1 = (s2, none) →
      ch.delete = pre ++ ep :: post →
      runSeq (deleteAction cfg) pre s2 = (s3, none) →
      (deleteRecord cfg s3 ep).2 = some e →
      ApplyChanges cfg s ch = ((deleteRecord cfg s3 ep).1,
        some (.wrap ("failed to delete record " ++ ep.dnsName) e))) ∧
    (∀ (s1 s2 : ClientState),
      runSeq (createAction cfg) ch.create s = (s1, none) →
      runSeq (updateAction cfg) (ch.updateOld.zip ch.updateNew) s1 = (s2, none) →
      ApplyChanges cfg s ch = runSeq (deleteAction cfg) ch.delete s2) := by
  refine ⟨?_, ?_, ?_, ?_⟩
  · intro pre ep post s1 e hch hpre hfe
    rw [ApplyChanges, hdry]
    simp only [Bool.false_eq_true, if_false]
    rw [hch, runSeq_append_ok _ pre (ep :: post) s s1 hpre, runSeq,
      createAction_err cfg ep s1 e hfe]
  · intro s1 pre pr post s2 e hcr hzip hpre hfe
    rw [ApplyChanges, hdry]
    simp only [Bool.false_eq_true, if_false]
    rw [hcr]
    simp only []
    rw [hzip, runSeq_append_ok _ pre (pr :: post) s1 s2 hpre, runSeq,
      updateAction_err cfg pr s2 e hfe]
  · intro s1 s2 pre ep post s3 e hcr hup hch hpre hfe
    rw [ApplyChanges, hdry]
    simp only [Bool.false_eq_true, if_false]
    rw [hcr]
    simp only []
    rw [hup]
    simp only []
    rw [hch, runSeq_append_ok _ pre (ep :: post) s2 s3 hpre, runSeq,
      deleteAction_err cfg ep s3 e hfe]
  · intro s1 s2 hcr hup
    rw [ApplyChanges, hdry]
    simp only [Bool.false_eq_true, if_false]
    rw [hcr]
    simp only []
    rw [hup]

/-- C3 witness: a changeset whose single create fails (the remote API errors
on the first call) makes ApplyChanges return that error wrapped with the
name of the record, leaving the state exactly as the failing action left it. -/
theorem C3_apply_changes_order_and_abort_witness :
    ApplyChanges ⟨["A", "AAAA", "CNAME"], [], false⟩ ⟨⟨[], 0⟩, 0, [0], [], []⟩
        ⟨[⟨"w.example.com", ["1.1.1.1"], "A", []⟩], [], [], []⟩ =
      ((createRecord ⟨["A", "AAAA", "CNAME"], [], false⟩ ⟨⟨[], 0⟩, 0, [0], [], []⟩
          ⟨"w.example.com", ["1.1.1.1"], "A", []⟩).1,
        some (.wrap "failed to create record w.example.com"
          (.wrap "failed to check for existing record"
            (.wrap "failed to list rewrites" (.api 0))))) := by
  exact (C3_apply_changes_order_and_abort ⟨["A", "AAAA", "CNAME"], [], false⟩
    ⟨⟨[], 0⟩, 0, [0], [], []⟩
    ⟨[⟨"w.example.com", ["1.1.1.1"], "A", []⟩], [], [], []⟩ rfl).1
    [] ⟨"w.example.com", ["1.1.1.1"], "A", []⟩ [] ⟨⟨[], 0⟩, 0, [0], [], []⟩
    (.wrap "failed to check for existing record"
      (.wrap "failed to list rewrites" (.api 0)))
    rfl rfl (by decide)

theorem adjustLoop_eq_filter (cfg : Config) :
    ∀ eps : List Endpoint, adjustLoop cfg eps = eps.filter (specKeep cfg) := by
  intro eps
  induction eps with
  | nil => rfl
  | cons ep rest ih =>
    have hkeep : specKeep cfg ep =
        (isSupportedRecordType cfg ep.recordType &&
          (cfg.domainFilter.isEmpty || matchesDomainFilter cfg ep.dnsName)) := rfl
    have hlen : (decide (0 < cfg.domainFilter.length)) = !cfg.domainFilter.isEmpty := by
      cases cfg.domainFilter <;> simp
    rw [adjustLoop, List.filter_cons, hkeep, hlen, ih]
    cases hsup : isSupportedRecordType cfg ep.recordType <;>
      cases he : cfg.domainFilter.isEmpty <;>
      cases hm : matchesDomainFilter cfg ep.dnsName <;>
      simp [hsup, he, hm]

/-- C8: AdjustEndpoints never returns an error and keeps an endpoint iff its
record kind is in the supported set (case-insensitively) and the domain
allow-list is empty or the name ends with an entry or equals an entry with
its leading dot stripped; the output is the order-preserving filter of the
input by that predicate (hence a sublist of the input, and empty on empty
input). -/
theorem C8_adjust_endpoints_filter (cfg : Config) (eps : List Endpoint) :
    (AdjustEndpoints cfg eps).2 = none ∧
    (AdjustEndpoints cfg eps).1 = eps.filter (specKeep cfg) ∧
    List.Sublist (AdjustEndpoints cfg eps).1 eps ∧
    (AdjustEndpoints cfg ([] : List Endpoint)).1 = [] := by
  refine ⟨rfl, adjustLoop_eq_filter cfg eps, ?_, rfl⟩
  rw [AdjustEndpoints]
  simp only [adjustLoop_eq_filter cfg eps]
  exact List.filter_sublist eps

/-- C9: with dry-run enabled, ApplyChanges performs no remote mutation (the
store and the mutating-call trace are untouched; only the single preview
fetch happens) and returns nil; and when that best-effort fetch fails, the
preview comparison set degrades to empty rather than failing the call. -/
theorem C9_dry_run_no_mutation (cfg : Config) (s : ClientState) (ch : Changes)
    (hdry : cfg.dryRun = true) :
    ApplyChanges cfg s ch = ((logChanges s).1, none) ∧
    (logChanges s).1.store = s.store ∧
    (logChanges s).1.trace = s.trace ∧
    (s.failAt.contains s.calls = true → (logChanges s).2 = []) := by
  refine ⟨?_, ?_, ?_, ?_⟩
  · rw [ApplyChanges, hdry]
    simp
  · unfold logChanges Records ListRewrites
    cases hok : apiOk s <;> simp
  · unfold logChanges Records ListRewrites
    cases hok : apiOk s <;> simp
  · intro hc
    have hok : apiOk s = false := by
      have hmem : s.calls ∈ s.failAt := List.mem_of_elem_eq_true hc
      simp [apiOk, hmem]
    unfold logChanges Records ListRewrites
    rw [hok]
    simp

/-- C9 witness: with dry-run on and the preview fetch scheduled to fail, the
store and trace stay untouched, nil is returned, and the comparison set is
empty. -/
theorem C9_dry_run_no_mutation_witness :
    ApplyChanges ⟨["A", "AAAA", "CNAME"], [], true⟩ ⟨⟨[⟨7, "n", "A", "c"⟩], 8⟩, 0, [0], [], []⟩
        ⟨[⟨"w.example.com", ["1.1.1.1"], "A", []⟩], [], [], []⟩ =
      ((logChanges ⟨⟨[⟨7, "n", "A", "c"⟩], 8⟩, 0, [0], [], []⟩).1, none) ∧
    (logChanges ⟨⟨[⟨7, "n", "A", "c"⟩], 8⟩, 0, [0], [], []⟩).1.store = ⟨[⟨7, "n", "A", "c"⟩], 8⟩ ∧
    (logChanges ⟨⟨[⟨7, "n", "A", "c"⟩], 8⟩, 0, [0], [], []⟩).2 = [] := by
  have h := C9_dry_run_no_mutation ⟨["A", "AAAA", "CNAME"], [], true⟩
    ⟨⟨[⟨7, "n", "A", "c"⟩], 8⟩, 0, [0], [], []⟩
    ⟨[⟨"w.example.com", ["1.1.1.1"], "A", []⟩], [], [], []⟩ rfl
  exact ⟨h.1, h.2.1, h.2.2.2 rfl⟩

end NextDNS
